import Mathlib

/-!
Verification of the Package Operation Coordinator
(`lib/utils/package-manager.py`) against its specification.

The Python module shells out to external commands (`apt-get`, `dpkg`,
`apt-cache`, `curl`), reads lock sidecar files and queries process
liveness.  We embed it shallowly: every external effect is supplied by an
explicit environment record, and each embedded operation additionally
returns the trace of external commands it invoked, so that claims about
"which commands run" are statable.

Modelling notes, applying throughout:
* `subprocess.run(..., check=True)` raising `CalledProcessError` on a
  nonzero exit status is modelled by testing `exitCode ≠ 0` on the result
  supplied by the environment.
* Python `str.strip()` is modelled with `Char.isWhitespace` (ASCII
  whitespace); Python's `str.isdigit()` is modelled as "nonempty and all
  ASCII digits".  The embedding works over ASCII data, which is what the
  parsed tool output consists of.
* The environment is a pure function, so repeated invocations of the same
  command observe the same result.
-/

namespace PkgMgr

/-! ### Character-list string helpers (kernel-reducible) -/

/-- ASCII-level model of Python's whitespace test used by `str.strip()`. -/
def isWs (c : Char) : Bool := c.isWhitespace

/-- Remove trailing whitespace characters. -/
def rstripWs (l : List Char) : List Char := (l.reverse.dropWhile isWs).reverse

/-- Model of Python `str.strip()` on a character list. -/
def stripL (l : List Char) : List Char := rstripWs (l.dropWhile isWs)

/-- Model of Python `str.strip()`. -/
def pyStrip (s : String) : String := String.mk (stripL s.data)

/-- Bool test: `sep` is a leading segment of `l`. -/
def isPre : List Char → List Char → Bool
  | [], _ => true
  | _ :: _, [] => false
  | a :: as, b :: bs => a == b && isPre as bs

/-- Find the first occurrence of `sep` in `l`; return the part before it
and the part after it. -/
def findSep (sep : List Char) : List Char → Option (List Char × List Char)
  | [] => if isPre sep [] then some ([], []) else none
  | c :: rest =>
      if isPre sep (c :: rest) then some ([], (c :: rest).drop sep.length)
      else
        match findSep sep rest with
        | some (pre, post) => some (c :: pre, post)
        | none => none

/-- Model of Python's `sep in s` substring test. -/
def containsSub (sep l : List Char) : Bool := (findSep sep l).isSome

/-- Model of Python `s.split(sep)[1]` (left-to-right non-overlapping
occurrences): the text between the first occurrence of `sep` and the next
one (or the end).  Only used under a `containsSub` guard. -/
def splitIdx1 (sep l : List Char) : List Char :=
  match findSep sep l with
  | some (_, post) =>
      match findSep sep post with
      | some (pre2, _) => pre2
      | none => post
  | none => []

/-- Split on newline characters, as Python `s.split("\n")`. -/
def splitLinesGo : List Char → List Char → List (List Char)
  | [], cur => [cur.reverse]
  | c :: rest, cur =>
      if c == '\n' then cur.reverse :: splitLinesGo rest []
      else splitLinesGo rest (c :: cur)

/-- The lines of a string, as Python `s.split("\n")`. -/
def splitLinesL (l : List Char) : List (List Char) := splitLinesGo l []

/-- Model of Python `int(s)` for a string of ASCII decimal digits. -/
def digitsToNat (l : List Char) : Nat :=
  l.foldl (fun n c => n * 10 + (c.toNat - 48)) 0

/-! ### Lock inspector (`check_stale_lock` / `release_stale_locks`) -/

/-- The three well-known lock paths, from `PackageManager.LOCK_FILES`. -/
def LOCK_FILES : List String :=
  ["/var/lib/dpkg/lock", "/var/lib/dpkg/lock-frontend",
   "/var/cache/apt/archives/lock"]

/-- Environment for the lock functions: filesystem existence, sidecar
file contents (`none` means `FileNotFoundError`/`PermissionError`, both
caught and skipped), process liveness (`psutil`), the effective uid and
whether `os.remove` succeeds on a given path. -/
structure LockEnv where
  pathExists : String → Bool
  sidecar : String → Option String
  alive : Nat → Bool
  euid : Nat
  removeOk : String → Bool

/-- Result of one iteration of the `check_stale_lock` loop for one lock
path: the path if it was found stale, and the liveness queries made
(lock path paired with the PID handed to `psutil.Process`). -/
def checkOne (env : LockEnv) (lf : String) : Option String × List (String × Nat) :=
  if env.pathExists lf then
    match env.sidecar (lf ++ ".lock") with
    | none => (none, [])
    | some content =>
        let pid := stripL content.data
        if pid ≠ [] ∧ pid.all Char.isDigit then
          if env.alive (digitsToNat pid) then (none, [(lf, digitsToNat pid)])
          else (some lf, [(lf, digitsToNat pid)])
        else (none, [])
  else (none, [])

/-- Accumulated outcome of `check_stale_lock`: the stale paths in
detection order, plus the trace of process-liveness queries. -/
structure LockScan where
  staleFiles : List String
  queried : List (String × Nat)

/-- One fold step of the `check_stale_lock` loop. -/
def scanStep (env : LockEnv) (acc : LockScan) (lf : String) : LockScan :=
  match checkOne env lf with
  | (some p, q) => { staleFiles := acc.staleFiles ++ [p], queried := acc.queried ++ q }
  | (none, q) => { staleFiles := acc.staleFiles, queried := acc.queried ++ q }

/-- The `check_stale_lock` loop over the three lock paths. -/
def scanLocks (env : LockEnv) : LockScan :=
  LOCK_FILES.foldl (scanStep env) { staleFiles := [], queried := [] }

/-- `PackageManager.check_stale_lock`: returns
`(len(stale_locks) > 0, stale_locks)`. -/
def check_stale_lock (env : LockEnv) : Bool × List String :=
  (decide (0 < (scanLocks env).staleFiles.length), (scanLocks env).staleFiles)

/-- The deletion loop of `release_stale_locks`: remove each stale file in
order; on the first `OSError` return failure together with the files
already removed. -/
def releaseGo (env : LockEnv) : List String → List String → Bool × List String
  | [], removed => (true, removed)
  | f :: fs, removed =>
      if env.removeOk f then releaseGo env fs (removed ++ [f])
      else (false, removed)

/-- `PackageManager.release_stale_locks`, returning the result together
with the list of lock files actually deleted.  The trailing best-effort
`dpkg --configure -a` pass changes neither the result nor the deletions,
so it is not represented. -/
def release_stale_locks (env : LockEnv) : Bool × List String :=
  let st := check_stale_lock env
  if !st.1 then (true, [])
  else if env.euid != 0 then (false, [])
  else releaseGo env st.2 []

/-- The staleness condition of the source: the base path exists, the
sidecar is readable, its stripped content is a nonempty digit string and
the denoted PID is not alive. -/
def stalePathFor (env : LockEnv) (p : String) : Prop :=
  env.pathExists p = true ∧
  ∃ c, env.sidecar (p ++ ".lock") = some c ∧
    stripL c.data ≠ [] ∧ (stripL c.data).all Char.isDigit = true ∧
    env.alive (digitsToNat (stripL c.data)) = false

/-! ### Lock lemmas -/

theorem checkOne_stale_eq {env : LockEnv} {lf p : String}
    (h : (checkOne env lf).1 = some p) : p = lf ∧ stalePathFor env lf := by
  unfold checkOne at h
  by_cases hex : env.pathExists lf
  · simp only [hex, if_true] at h
    rcases hsc : env.sidecar (lf ++ ".lock") with _ | c
    · rw [hsc] at h; simp at h
    · rw [hsc] at h
      simp only at h
      by_cases hpid : stripL c.data ≠ [] ∧ (stripL c.data).all Char.isDigit
      · rw [if_pos hpid] at h
        by_cases hal : env.alive (digitsToNat (stripL c.data))
        · rw [if_pos hal] at h; simp at h
        · rw [if_neg hal] at h
          simp only [Option.some.injEq] at h
          refine ⟨h.symm, hex, c, hsc, hpid.1, hpid.2, ?_⟩
          simpa using hal
      · rw [if_neg hpid] at h; simp at h
  · simp [hex] at h

theorem checkOne_queried_fst {env : LockEnv} {lf : String} {q : String × Nat}
    (h : q ∈ (checkOne env lf).2) : q.1 = lf := by
  unfold checkOne at h
  by_cases hex : env.pathExists lf
  · simp only [hex, if_true] at h
    rcases hsc : env.sidecar (lf ++ ".lock") with _ | c
    · rw [hsc] at h; simp at h
    · rw [hsc] at h
      simp only at h
      by_cases hpid : stripL c.data ≠ [] ∧ (stripL c.data).all Char.isDigit
      · rw [if_pos hpid] at h
        by_cases hal : env.alive (digitsToNat (stripL c.data))
        · rw [if_pos hal] at h
          simp only [List.mem_singleton] at h
          rw [h]
        · rw [if_neg hal] at h
          simp only [List.mem_singleton] at h
          rw [h]
      · rw [if_neg hpid] at h; simp at h
  · simp [hex] at h

theorem scanFold_stale_sound (env : LockEnv) (lfs : List String) (acc : LockScan)
    (hacc : ∀ p ∈ acc.staleFiles, stalePathFor env p) :
    ∀ p ∈ (lfs.foldl (scanStep env) acc).staleFiles, stalePathFor env p := by
  induction lfs generalizing acc with
  | nil => exact hacc
  | cons lf rest ih =>
    intro p hp
    refine ih (scanStep env acc lf) ?_ p hp
    intro q hq
    unfold scanStep at hq
    rcases hco : (checkOne env lf).1 with _ | s
    · rcases hco2 : checkOne env lf with ⟨os, ql⟩
      rw [hco2] at hq
      rw [hco2] at hco; simp only at hco
      subst hco
      exact hacc q hq
    · rcases hco2 : checkOne env lf with ⟨os, ql⟩
      rw [hco2] at hq
      rw [hco2] at hco; simp only at hco
      subst hco
      simp only [List.mem_append, List.mem_singleton] at hq
      rcases hq with hq | hq
      · exact hacc q hq
      · subst hq
        obtain ⟨hps, hst⟩ := checkOne_stale_eq (by rw [hco2])
        rw [hps]; exact hst

/-- Every path reported stale by `check_stale_lock` satisfies the
dead-PID staleness condition. -/
theorem check_stale_sound (env : LockEnv) :
    ∀ p ∈ (check_stale_lock env).2, stalePathFor env p := by
  intro p hp
  unfold check_stale_lock at hp
  simp only at hp
  exact scanFold_stale_sound env LOCK_FILES { staleFiles := [], queried := [] }
    (by intro q hq; simp at hq) p hp

theorem releaseGo_removed_sub (env : LockEnv) (fs removed : List String) :
    ∀ p ∈ (releaseGo env fs removed).2, p ∈ removed ∨ p ∈ fs := by
  induction fs generalizing removed with
  | nil =>
    intro p hp
    unfold releaseGo at hp
    exact Or.inl hp
  | cons f rest ih =>
    intro p hp
    unfold releaseGo at hp
    by_cases hr : env.removeOk f
    · rw [if_pos hr] at hp
      rcases ih (removed ++ [f]) p hp with h | h
      · simp only [List.mem_append, List.mem_singleton] at h
        rcases h with h | h
        · exact Or.inl h
        · exact Or.inr (by simp [h])
      · exact Or.inr (by simp [h])
    · rw [if_neg hr] at hp
      exact Or.inl hp

theorem scanStep_untouched (env : LockEnv) (lf lf2 : String) (acc : LockScan)
    (hco : checkOne env lf = (none, []))
    (h1 : lf ∉ acc.staleFiles) (h2 : ∀ n, (lf, n) ∉ acc.queried) :
    lf ∉ (scanStep env acc lf2).staleFiles ∧
    ∀ n, (lf, n) ∉ (scanStep env acc lf2).queried := by
  by_cases heq : lf2 = lf
  · subst heq
    unfold scanStep
    rw [hco]
    exact ⟨h1, by simpa using h2⟩
  · rcases hc : checkOne env lf2 with ⟨os, ql⟩
    have hql : ∀ q ∈ ql, q.1 = lf2 := by
      intro q hq
      exact checkOne_queried_fst (by rw [hc]; exact hq)
    have hqgoal : ∀ n, (lf, n) ∉ acc.queried ++ ql := by
      intro n hn
      rcases List.mem_append.mp hn with hn | hn
      · exact h2 n hn
      · exact heq ((hql _ hn).symm)
    unfold scanStep
    rw [hc]
    cases os with
    | none => exact ⟨h1, hqgoal⟩
    | some s =>
      have hs : s = lf2 := (checkOne_stale_eq (by rw [hc])).1
      refine ⟨?_, hqgoal⟩
      intro hmem
      rcases List.mem_append.mp hmem with hmem | hmem
      · exact h1 hmem
      · simp only [List.mem_singleton] at hmem
        exact heq (by rw [← hs, ← hmem])

theorem scanFold_untouched (env : LockEnv) (lf : String)
    (hco : checkOne env lf = (none, []))
    (lfs : List String) (acc : LockScan)
    (h1 : lf ∉ acc.staleFiles) (h2 : ∀ n, (lf, n) ∉ acc.queried) :
    lf ∉ (lfs.foldl (scanStep env) acc).staleFiles ∧
    ∀ n, (lf, n) ∉ (lfs.foldl (scanStep env) acc).queried := by
  induction lfs generalizing acc with
  | nil => exact ⟨h1, h2⟩
  | cons lf2 rest ih =>
    simp only [List.foldl_cons]
    obtain ⟨g1, g2⟩ := scanStep_untouched env lf lf2 acc hco h1 h2
    exact ih (scanStep env acc lf2) g1 g2

/-! ### Lock claims -/

/-- C8: whenever `check_stale_lock` finds no stale locks,
`release_stale_locks` succeeds as a no-op and deletes nothing — even
without root privilege. -/
theorem release_noop_success_when_no_stale (env : LockEnv)
    (h : (check_stale_lock env).1 = false) :
    release_stale_locks env = (true, []) := by
  unfold release_stale_locks
  simp [h]

/-- A lock environment with no lock files present at all and a non-root
effective uid. -/
def envNoLocksNonRoot : LockEnv :=
  { pathExists := fun _ => false
    sidecar := fun _ => none
    alive := fun _ => true
    euid := 1000
    removeOk := fun _ => false }

/-- Witness for C8: with no lock files present, `check_stale_lock`
reports no stale locks and `release_stale_locks` is a no-op success. -/
theorem release_noop_success_when_no_stale_witness :
    release_stale_locks envNoLocksNonRoot = (true, []) :=
  release_noop_success_when_no_stale envNoLocksNonRoot (by decide)

/-- Counterexample to C2 as stated: invoked without root privilege in
the lock state with no stale locks, `release_stale_locks` succeeds (it
does not fail). -/
theorem release_nonroot_succeeds_on_no_stale_cex :
    envNoLocksNonRoot.euid ≠ 0 ∧
    release_stale_locks envNoLocksNonRoot = (true, []) :=
  ⟨by decide, by decide⟩

/-- C2 (amended): without root privilege `release_stale_locks` never
deletes anything, and it fails exactly when stale locks exist (when none
exist it is a no-op success). -/
theorem release_nonroot_no_deletions (env : LockEnv) (h : env.euid ≠ 0) :
    (release_stale_locks env).2 = [] ∧
    ((release_stale_locks env).1 = true ↔ (check_stale_lock env).1 = false) := by
  have hbne : (env.euid != 0) = true := by simpa [bne_iff_ne] using h
  unfold release_stale_locks
  cases hb : (check_stale_lock env).1 with
  | false => simp [hb]
  | true => simp [hb, hbne]

/-- A lock environment with one stale lock (dead PID 999999) and a
non-root effective uid. -/
def envStaleNonRoot : LockEnv :=
  { pathExists := fun _ => true
    sidecar := fun s => if s = "/var/lib/dpkg/lock.lock" then some "999999" else none
    alive := fun _ => false
    euid := 1000
    removeOk := fun _ => true }

/-- Witness for the amended C2: a non-root call with a stale lock
present deletes nothing and fails. -/
theorem release_nonroot_no_deletions_witness :
    (release_stale_locks envStaleNonRoot).2 = [] ∧
    ((release_stale_locks envStaleNonRoot).1 = true ↔
      (check_stale_lock envStaleNonRoot).1 = false) :=
  release_nonroot_no_deletions envStaleNonRoot (by decide)

/-- C4: a lock file is only ever removed by `release_stale_locks` if its
recorded PID does not correspond to a live process. -/
theorem release_only_removes_dead_pid_locks (env : LockEnv) (p : String)
    (hp : p ∈ (release_stale_locks env).2) : stalePathFor env p := by
  unfold release_stale_locks at hp
  cases hb : (check_stale_lock env).1 with
  | false => simp [hb] at hp
  | true =>
    cases he : env.euid != 0 with
    | true => simp [hb, he] at hp
    | false =>
      simp only [hb, he, Bool.not_true, if_false] at hp
      rcases releaseGo_removed_sub env (check_stale_lock env).2 [] p hp with h | h
      · simp at h
      · exact check_stale_sound env p h

/-- The C4 scenario environment: all three lock files exist, the
frontend lock's sidecar records a dead PID (200), the other two record
live PIDs, the caller is root and deletions succeed. -/
def envThreeLocksOneDead : LockEnv :=
  { pathExists := fun _ => true
    sidecar := fun s =>
      if s = "/var/lib/dpkg/lock.lock" then some "100"
      else if s = "/var/lib/dpkg/lock-frontend.lock" then some "200"
      else if s = "/var/cache/apt/archives/lock.lock" then some "300"
      else none
    alive := fun n => !(n == 200)
    euid := 0
    removeOk := fun _ => true }

/-- Witness for C4: in the three-locks/one-dead-PID scenario exactly the
dead-PID lock is deleted, and it satisfies the staleness condition. -/
theorem release_only_removes_dead_pid_locks_witness :
    (release_stale_locks envThreeLocksOneDead).2 = ["/var/lib/dpkg/lock-frontend"] ∧
    stalePathFor envThreeLocksOneDead "/var/lib/dpkg/lock-frontend" :=
  ⟨by decide,
   release_only_removes_dead_pid_locks envThreeLocksOneDead
     "/var/lib/dpkg/lock-frontend" (by decide)⟩

/-- C10: a lock whose sidecar content strips to the empty string or to a
non-digit string is silently skipped: it is never reported stale and no
process-liveness query is made for it. -/
theorem inspect_skips_blank_or_nondigit_sidecar (env : LockEnv) (lf c : String)
    (hsc : env.sidecar (lf ++ ".lock") = some c)
    (hbad : stripL c.data = [] ∨ (stripL c.data).all Char.isDigit = false) :
    lf ∉ (scanLocks env).staleFiles ∧ ∀ n, (lf, n) ∉ (scanLocks env).queried := by
  have hco : checkOne env lf = (none, []) := by
    unfold checkOne
    by_cases hex : env.pathExists lf
    · rw [if_pos hex, hsc]
      have hng : ¬(stripL c.data ≠ [] ∧ (stripL c.data).all Char.isDigit) := by
        rcases hbad with h | h
        · intro hcon; exact hcon.1 h
        · intro hcon
          have := hcon.2
          rw [h] at this
          exact Bool.false_ne_true this
      simp only [hng, if_false]
    · rw [if_neg hex]
  exact scanFold_untouched env lf hco LOCK_FILES { staleFiles := [], queried := [] }
    (by simp) (by simp)

/-- A lock environment whose frontend-lock sidecar holds non-digit
content and whose main-lock sidecar holds only whitespace. -/
def envGarbageSidecars : LockEnv :=
  { pathExists := fun _ => true
    sidecar := fun s =>
      if s = "/var/lib/dpkg/lock.lock" then some "  "
      else if s = "/var/lib/dpkg/lock-frontend.lock" then some "abc"
      else none
    alive := fun _ => false
    euid := 0
    removeOk := fun _ => true }

/-- Witness for C10: the non-digit sidecar "abc" leads to no staleness
report and no liveness query for that lock. -/
theorem inspect_skips_blank_or_nondigit_sidecar_witness :
    "/var/lib/dpkg/lock-frontend" ∉ (scanLocks envGarbageSidecars).staleFiles ∧
    ("/var/lib/dpkg/lock-frontend", 200) ∉ (scanLocks envGarbageSidecars).queried := by
  have h := inspect_skips_blank_or_nondigit_sidecar envGarbageSidecars
    "/var/lib/dpkg/lock-frontend" "abc" (by decide) (Or.inr (by decide))
  exact ⟨h.1, h.2 200⟩

/-! ### Repository probe (`check_repository_connectivity`) -/

/-- Captured result of one external command: exit status and the two
output streams. -/
structure CmdRes where
  exitCode : Nat
  stdout : String
  stderr : String

/-- Environment for the repository probe: the `apt-cache policy` result,
and per-URL the `curl` result (`none` models a raised
`TimeoutExpired`/`CalledProcessError`, both caught) together with the
exception text `str(e)` used in that branch. -/
structure RepoEnv where
  policy : CmdRes
  curl : String → Option CmdRes
  curlErr : String → String

/-- One per-endpoint entry appended to `result["repositories"]`. -/
structure Endpoint where
  url : String
  accessible : Bool
  http_code : Option String
  error : Option String
deriving DecidableEq

/-- The probe's result dictionary. -/
structure RepoResult where
  all_accessible : Bool
  repositories : List Endpoint
  failures : List String
  error : Option String
deriving DecidableEq

/-- URL extraction from one `apt-cache policy` line: the stripped line
must start with "http"; its first whitespace-separated token is the URL
(Python `line.strip().split()[0]`). -/
def urlOfLine (l : List Char) : Option String :=
  let t := stripL l
  if isPre "http".data t then some (String.mk (t.takeWhile (fun c => !isWs c)))
  else none

/-- First-seen deduplication, modelling the `set()` accumulation of
repository URLs (the source iterates a Python set, whose order is
unspecified; we fix first-seen order, which the claims do not depend
on). -/
def dedupFirst : List String → List String → List String
  | acc, [] => acc
  | acc, u :: us => if u ∈ acc then dedupFirst acc us else dedupFirst (acc ++ [u]) us

/-- The distinct repository URLs extracted from the policy listing. -/
def extractUrls (stdout : String) : List String :=
  dedupFirst [] ((splitLinesL stdout.data).filterMap urlOfLine)

/-- The body of the per-repository probe loop. -/
def probeOne (env : RepoEnv) (acc : RepoResult) (u : String) : RepoResult :=
  match env.curl u with
  | some r =>
      let code := pyStrip r.stdout
      if isPre "2".data code.data || isPre "3".data code.data then
        { acc with repositories := acc.repositories ++
            [{ url := u, accessible := true, http_code := some code, error := none }] }
      else
        { acc with
            all_accessible := false
            failures := acc.failures ++ [u]
            repositories := acc.repositories ++
              [{ url := u, accessible := false, http_code := some code, error := none }] }
  | none =>
      { acc with
          all_accessible := false
          failures := acc.failures ++ [u]
          repositories := acc.repositories ++
            [{ url := u, accessible := false, http_code := none,
               error := some (env.curlErr u) }] }

/-- `PackageManager.check_repository_connectivity`. -/
def check_repository_connectivity (env : RepoEnv) : RepoResult :=
  let init : RepoResult :=
    { all_accessible := true, repositories := [], failures := [], error := none }
  if env.policy.exitCode ≠ 0 then
    { init with error := some ("Failed to check repositories: " ++ env.policy.stderr) }
  else
    (extractUrls env.policy.stdout).foldl (probeOne env) init

/-- Exit code of the `check-repos` subcommand of `main`. -/
def mainCheckReposExit (env : RepoEnv) : Nat :=
  if (check_repository_connectivity env).all_accessible then 0 else 1

theorem probeOne_invariant (env : RepoEnv) (acc : RepoResult) (u : String)
    (h : acc.all_accessible = true ↔ acc.failures = []) :
    (probeOne env acc u).all_accessible = true ↔ (probeOne env acc u).failures = [] := by
  unfold probeOne
  rcases env.curl u with _ | r
  · simp
  · simp only
    by_cases hc : isPre "2".data (pyStrip r.stdout).data ||
        isPre "3".data (pyStrip r.stdout).data
    · rw [if_pos hc]
      exact h
    · rw [if_neg hc]
      simp

theorem probeFold_invariant (env : RepoEnv) (us : List String) (acc : RepoResult)
    (h : acc.all_accessible = true ↔ acc.failures = []) :
    (us.foldl (probeOne env) acc).all_accessible = true ↔
    (us.foldl (probeOne env) acc).failures = [] := by
  induction us generalizing acc with
  | nil => exact h
  | cons u rest ih =>
    simp only [List.foldl_cons]
    exact ih (probeOne env acc u) (probeOne_invariant env acc u h)

/-- C5: in every probe result, including the one produced when the
policy listing itself fails, `all_accessible` is true iff `failures` is
empty. -/
theorem repo_all_accessible_iff_no_failures (env : RepoEnv) :
    (check_repository_connectivity env).all_accessible = true ↔
    (check_repository_connectivity env).failures = [] := by
  unfold check_repository_connectivity
  by_cases hp : env.policy.exitCode ≠ 0
  · rw [if_pos hp]
    simp
  · rw [if_neg hp]
    exact probeFold_invariant env _ _ (by simp)

/-- C9: when the policy listing fails, the probe still reports
`all_accessible = true` with empty endpoint and failure lists and only
the top-level error text set, and `check-repos` exits 0. -/
theorem repo_policy_failure_reports_accessible (env : RepoEnv)
    (h : env.policy.exitCode ≠ 0) :
    check_repository_connectivity env =
      { all_accessible := true, repositories := [], failures := [],
        error := some ("Failed to check repositories: " ++ env.policy.stderr) } ∧
    mainCheckReposExit env = 0 := by
  have hres : check_repository_connectivity env =
      { all_accessible := true, repositories := [], failures := [],
        error := some ("Failed to check repositories: " ++ env.policy.stderr) } := by
    unfold check_repository_connectivity
    rw [if_pos h]
  exact ⟨hres, by unfold mainCheckReposExit; rw [hres]; simp⟩

/-- A probe environment whose policy listing fails with exit status 100. -/
def envPolicyBroken : RepoEnv :=
  { policy := { exitCode := 100, stdout := "", stderr := "E: some policy error" }
    curl := fun _ => none
    curlErr := fun _ => "timeout" }

/-- Witness for C9 at a concrete failing policy listing. -/
theorem repo_policy_failure_reports_accessible_witness :
    check_repository_connectivity envPolicyBroken =
      { all_accessible := true, repositories := [], failures := [],
        error := some ("Failed to check repositories: " ++ envPolicyBroken.policy.stderr) } ∧
    mainCheckReposExit envPolicyBroken = 0 :=
  repo_policy_failure_reports_accessible envPolicyBroken (by decide)

/-! ### Install coordinator (`update_cache` / `install_package` / `main install`) -/

/-- The external-command environment: every `subprocess.run` call is
answered by this pure function. -/
def Exec : Type := List String → CmdRes

/-- `apt-get update -qq`, the cache-refresh command. -/
def updateCmd : List String := ["apt-get", "update", "-qq"]

/-- `dpkg --configure -a`, the package-database repair command. -/
def configureCmd : List String := ["dpkg", "--configure", "-a"]

/-- The install command built by `install_package`. -/
def installCmd (auto_yes : Bool) (pkg : String) : List String :=
  ["apt-get", "install"] ++ (if auto_yes then ["-y"] else []) ++ [pkg]

/-- Instance state of `PackageManager`: the "cache already refreshed"
flag set in `__init__`. -/
structure PMState where
  apt_cache_updated : Bool

/-- A freshly constructed `PackageManager`. -/
def freshPM : PMState := { apt_cache_updated := false }

/-- `PackageManager.update_cache`, returning (result, new state) plus
the trace of commands invoked. -/
def update_cache (run : Exec) (st : PMState) (force : Bool) :
    (Bool × PMState) × List (List String) :=
  if st.apt_cache_updated && !force then ((true, st), [])
  else
    let r := run updateCmd
    if r.exitCode = 0 then ((true, { apt_cache_updated := true }), [updateCmd])
    else ((false, st), [updateCmd])

/-- `PackageManager.install_package`: refresh the cache (its result is
not consulted), then run the install command once; on a nonzero exit
return failure with the diagnostic message built from that attempt's
stderr. -/
def install_package (run : Exec) (st : PMState) (pkg : String) (auto_yes : Bool) :
    (Bool × String) × PMState × List (List String) :=
  let u := update_cache run st false
  let cmd := installCmd auto_yes pkg
  let r := run cmd
  if r.exitCode = 0 then ((true, r.stdout), u.1.2, u.2 ++ [cmd])
  else ((false, "Failed to install " ++ pkg ++ ": " ++ r.stderr), u.1.2, u.2 ++ [cmd])

/-- The `install` subcommand of `main`: (exit code, printed text, trace
of commands invoked). -/
def mainInstall (run : Exec) (pkg : String) : Nat × String × List (List String) :=
  let res := install_package run freshPM pkg true
  if res.1.1 then (0, "Successfully installed " ++ pkg, res.2.2)
  else (1, res.1.2, res.2.2)

theorem update_cache_fresh_trace (run : Exec) :
    (update_cache run freshPM false).2 = [updateCmd] := by
  unfold update_cache freshPM
  by_cases h : (run updateCmd).exitCode = 0 <;> simp [h]

theorem updateCmd_ne_installCmd (pkg : String) : updateCmd ≠ installCmd true pkg := by
  simp [updateCmd, installCmd]

theorem mainInstall_trace (run : Exec) (pkg : String) :
    (mainInstall run pkg).2.2 = [updateCmd, installCmd true pkg] := by
  unfold mainInstall install_package
  have ht := update_cache_fresh_trace run
  by_cases h : (run (installCmd true pkg)).exitCode = 0 <;>
    simp [h, ht]

/-- An execution environment in which the `apt-get install` command for
`missingpkg` fails and every other command succeeds. -/
def runInstallFails : Exec := fun c =>
  if c = installCmd true "missingpkg" then
    { exitCode := 100, stdout := "", stderr := "E: Unable to locate package missingpkg" }
  else { exitCode := 0, stdout := "", stderr := "" }

/-- Counterexample to C1 as stated: on a failing first install attempt
the coordinator performs no package-database repair and no retry — the
trace holds exactly one install invocation and no `dpkg --configure -a`,
and the diagnostic carries only the single attempt's stderr. -/
theorem install_failure_no_repair_no_retry_cex :
    (runInstallFails (installCmd true "missingpkg")).exitCode ≠ 0 ∧
    (mainInstall runInstallFails "missingpkg").1 = 1 ∧
    (mainInstall runInstallFails "missingpkg").2.2.count (installCmd true "missingpkg") = 1 ∧
    configureCmd ∉ (mainInstall runInstallFails "missingpkg").2.2 ∧
    (mainInstall runInstallFails "missingpkg").2.1 =
      "Failed to install missingpkg: E: Unable to locate package missingpkg" := by
  refine ⟨by decide, by decide, by decide, by decide, by decide⟩

/-- C1 (amended): when the install attempt fails, the request fails with
exit code 1 and the diagnostic text built from that single attempt's
stderr; exactly one install invocation occurs, and the repair
(`dpkg --configure -a`) step never runs. -/
theorem install_failure_single_attempt (run : Exec) (pkg : String)
    (h : (run (installCmd true pkg)).exitCode ≠ 0) :
    (mainInstall run pkg).1 = 1 ∧
    (mainInstall run pkg).2.1 =
      "Failed to install " ++ pkg ++ ": " ++ (run (installCmd true pkg)).stderr ∧
    (mainInstall run pkg).2.2.count (installCmd true pkg) = 1 ∧
    configureCmd ∉ (mainInstall run pkg).2.2 := by
  have htr := mainInstall_trace run pkg
  have hne := updateCmd_ne_installCmd pkg
  refine ⟨?_, ?_, ?_, ?_⟩
  · unfold mainInstall install_package
    simp [h]
  · unfold mainInstall install_package
    simp [h]
  · rw [htr]
    simp [List.count_cons, hne]
  · rw [htr]
    simp [configureCmd, updateCmd, installCmd]

/-- Witness for the amended C1 at the concrete failing environment. -/
theorem install_failure_single_attempt_witness :
    (mainInstall runInstallFails "missingpkg").1 = 1 ∧
    (mainInstall runInstallFails "missingpkg").2.1 =
      "Failed to install " ++ "missingpkg" ++ ": " ++
        (runInstallFails (installCmd true "missingpkg")).stderr ∧
    (mainInstall runInstallFails "missingpkg").2.2.count (installCmd true "missingpkg") = 1 ∧
    configureCmd ∉ (mainInstall runInstallFails "missingpkg").2.2 :=
  install_failure_single_attempt runInstallFails "missingpkg" (by decide)

/-- An execution environment in which the cache refresh fails and every
other command (in particular the install) succeeds. -/
def runUpdateBroken : Exec := fun c =>
  if c = updateCmd then { exitCode := 100, stdout := "", stderr := "E: update broken" }
  else { exitCode := 0, stdout := "Setting up somepkg", stderr := "" }

/-- Counterexample to C3 as stated: with a failing cache refresh the
request does not abort — the install command is still attempted and the
request even succeeds. -/
theorem cache_failure_does_not_abort_cex :
    (runUpdateBroken updateCmd).exitCode ≠ 0 ∧
    (mainInstall runUpdateBroken "somepkg").1 = 0 ∧
    installCmd true "somepkg" ∈ (mainInstall runUpdateBroken "somepkg").2.2 := by
  refine ⟨by decide, by decide, by decide⟩

/-- C3 (amended): a cache-refresh failure is not terminal: the install
command is attempted regardless, and the request's outcome is decided
solely by the install attempt. -/
theorem cache_refresh_failure_not_terminal (run : Exec) (pkg : String)
    (_h : (run updateCmd).exitCode ≠ 0) :
    installCmd true pkg ∈ (mainInstall run pkg).2.2 ∧
    ((mainInstall run pkg).1 = 0 ↔ (run (installCmd true pkg)).exitCode = 0) := by
  have htr := mainInstall_trace run pkg
  refine ⟨by rw [htr]; simp, ?_⟩
  unfold mainInstall install_package
  by_cases hi : (run (installCmd true pkg)).exitCode = 0 <;> simp [hi]

/-- Witness for the amended C3 at the concrete environment with a broken
cache refresh. -/
theorem cache_refresh_failure_not_terminal_witness :
    installCmd true "somepkg" ∈ (mainInstall runUpdateBroken "somepkg").2.2 ∧
    ((mainInstall runUpdateBroken "somepkg").1 = 0 ↔
      (runUpdateBroken (installCmd true "somepkg")).exitCode = 0) :=
  cache_refresh_failure_not_terminal runUpdateBroken "somepkg" (by decide)

/-! ### Package verifier (`verify_package`) -/

/-- `dpkg -s <pkg>`, the installed-status query. -/
def dpkgStatusCmd (pkg : String) : List String := ["dpkg", "-s", pkg]

/-- `apt-cache depends <pkg>`, the immediate-dependency listing. -/
def aptDependsCmd (pkg : String) : List String := ["apt-cache", "depends", pkg]

/-- Per-line model of `re.search(r"^Tag\s+(.+)$", line)` for a literal
tag: the line must start with the tag, followed by at least one
whitespace character; the captured group is the rest with leading
whitespace removed when something non-whitespace remains, otherwise (by
regex backtracking) the last whitespace character, requiring at least
two characters after the tag.  (The possibility of `\s` matching a
newline across lines in the MULTILINE search is not modelled; `dpkg -s`
fields are single-line.) -/
def lineGroup (tag l : List Char) : Option (List Char) :=
  if isPre tag l then
    let rest := l.drop tag.length
    match rest with
    | [] => none
    | c :: _ =>
        if isWs c then
          let t := rest.dropWhile isWs
          if t ≠ [] then some t
          else if 2 ≤ rest.length then some (rest.drop (rest.length - 1)) else none
        else none
  else none

/-- First line of `stdout` matching `^Tag\s+(.+)$`, returning the
captured group. -/
def searchLines (tag : List Char) (stdout : String) : Option (List Char) :=
  (splitLinesL stdout.data).findSome? (lineGroup tag)

/-- The version extracted by `verify_package`. -/
def versionOf (stdout : String) : Option String :=
  (searchLines "Version:".data stdout).map String.mk

/-- The `Status:` line check of `verify_package`: the captured group
must contain "installed" as a substring. -/
def statusInstalled (stdout : String) : Bool :=
  match searchLines "Status:".data stdout with
  | some g => containsSub "installed".data g
  | none => false

/-- Dependency extraction of `verify_package` (non-recursive): lines
whose stripped text starts with "Depends:"; the dependency is
`line.split("Depends:")[1].strip()` (no version-constraint stripping
here). -/
def verifyDeps (stdout : String) : List String :=
  (splitLinesL stdout.data).filterMap fun line =>
    if isPre "Depends:".data (stripL line) then
      some (String.mk (stripL (splitIdx1 "Depends:".data line)))
    else none

/-- The dependency-status loop of `verify_package`: `dpkg -s` each
dependency, stopping at the first failure. -/
def depsMetLoop (run : Exec) : List String → Bool × List (List String)
  | [] => (true, [])
  | d :: ds =>
      let r := run (dpkgStatusCmd d)
      if r.exitCode = 0 then
        let rest := depsMetLoop run ds
        (rest.1, dpkgStatusCmd d :: rest.2)
      else (false, [dpkgStatusCmd d])

/-- The verification result dictionary.  `files_intact` starts as `None`
and is only ever set to `True`, hence `Option Bool`. -/
structure VerifyRes where
  installed : Bool
  version : Option String
  files_intact : Option Bool
  dependencies_met : Bool
deriving DecidableEq

/-- `PackageManager.verify_package`, with the trace of commands
invoked.  If `dpkg -s` fails the defaults are returned immediately; the
dependency check only runs for an installed package, and a failing
`apt-cache depends` leaves `dependencies_met` at its default `False`. -/
def verify_package (run : Exec) (pkg : String) : VerifyRes × List (List String) :=
  let r := run (dpkgStatusCmd pkg)
  if r.exitCode ≠ 0 then
    ({ installed := false, version := none, files_intact := none,
       dependencies_met := false }, [dpkgStatusCmd pkg])
  else
    let version := versionOf r.stdout
    let intact := if statusInstalled r.stdout then some true else none
    let rd := run (aptDependsCmd pkg)
    if rd.exitCode ≠ 0 then
      ({ installed := true, version := version, files_intact := intact,
         dependencies_met := false }, [dpkgStatusCmd pkg, aptDependsCmd pkg])
    else
      let met := depsMetLoop run (verifyDeps rd.stdout)
      ({ installed := true, version := version, files_intact := intact,
         dependencies_met := met.1 },
       [dpkgStatusCmd pkg, aptDependsCmd pkg] ++ met.2)

/-- C7: for a package whose installed-status query fails, the verifier
returns `installed = false`, `dependencies_met = false` and the default
unknown version, and the status query is the only command it runs (the
dependency check is skipped entirely). -/
theorem verify_uninstalled_defaults (run : Exec) (pkg : String)
    (h : (run (dpkgStatusCmd pkg)).exitCode ≠ 0) :
    verify_package run pkg =
      ({ installed := false, version := none, files_intact := none,
         dependencies_met := false }, [dpkgStatusCmd pkg]) := by
  unfold verify_package
  rw [if_pos h]

/-- An environment in which `dpkg -s somepkg` fails (the package is not
installed) while its dependency listing would report dependencies. -/
def runNotInstalled : Exec := fun c =>
  if c = dpkgStatusCmd "somepkg" then
    { exitCode := 1, stdout := "", stderr := "package somepkg is not installed" }
  else if c = aptDependsCmd "somepkg" then
    { exitCode := 0, stdout := "somepkg\n  Depends: libfoo\n", stderr := "" }
  else { exitCode := 0, stdout := "", stderr := "" }

/-- Witness for C7 at the concrete not-installed environment. -/
theorem verify_uninstalled_defaults_witness :
    verify_package runNotInstalled "somepkg" =
      ({ installed := false, version := none, files_intact := none,
         dependencies_met := false }, [dpkgStatusCmd "somepkg"]) :=
  verify_uninstalled_defaults runNotInstalled "somepkg" (by decide)

/-! ### Dependency resolver (`resolve_dependencies`)

The version-constraint removal in the source is
`re.sub(r"\s*\(.*\)", "", dep)`.  With a greedy `.*` (which cannot match
a newline, and the parsed text is a single line) this regex matches iff
the string contains a `'('` with some `')'` after it; the single,
leftmost match then spans from the whitespace run immediately preceding
the first `'('` to the last `')'` of the string, and the remainder after
that `')'` contains no further `')'`, so no second match exists.
`stripParenL` below implements exactly that: everything before the first
`'('` with its trailing whitespace removed, concatenated with everything
after the last `')'`. -/

/-- Does the string contain a `'('` followed (not necessarily
immediately) by a `')'`?  Exactly the condition under which the regex
`\s*\(.*\)` has a match. -/
def hasParenPair (l : List Char) : Bool :=
  (l.dropWhile (fun c => c != '(')).any (fun c => c == ')')

/-- Model of `re.sub(r"\s*\(.*\)", "", dep)` (see section comment). -/
def stripParenL (l : List Char) : List Char :=
  if hasParenPair l then
    rstripWs (l.takeWhile (fun c => c != '(')) ++
      (l.reverse.takeWhile (fun c => c != ')')).reverse
  else l

/-- `hasParenPair` on a string's characters. -/
def hasParenPairS (s : String) : Bool := hasParenPair s.data

/-- After constraint removal no parenthesized group remains. -/
theorem stripParen_no_pair (l : List Char) : hasParenPair (stripParenL l) = false := by
  unfold stripParenL
  by_cases hp : hasParenPair l = true
  · rw [if_pos hp]
    have hAmem : ∀ c ∈ rstripWs (l.takeWhile (fun c => c != '(')), (c != '(') = true := by
      intro c hc
      unfold rstripWs at hc
      rw [List.mem_reverse] at hc
      have hc2 : c ∈ (l.takeWhile (fun c => c != '(')).reverse :=
        (List.dropWhile_sublist isWs).subset hc
      rw [List.mem_reverse] at hc2
      have h3 := List.mem_takeWhile_imp hc2
      simpa using h3
    have hBmem : ∀ c ∈ (l.reverse.takeWhile (fun c => c != ')')).reverse,
        (c != ')') = true := by
      intro c hc
      rw [List.mem_reverse] at hc
      have h3 := List.mem_takeWhile_imp hc
      simpa using h3
    unfold hasParenPair
    rw [List.dropWhile_append_of_pos hAmem]
    refine Bool.eq_false_iff.mpr ?_
    intro hany
    rw [List.any_eq_true] at hany
    obtain ⟨c, hc, hcq⟩ := hany
    have hcB : c ∈ (l.reverse.takeWhile (fun c => c != ')')).reverse :=
      (List.dropWhile_sublist _).subset hc
    have hne := hBmem c hcB
    rw [beq_iff_eq] at hcq
    rw [hcq] at hne
    simp at hne
  · rw [if_neg hp]
    exact Bool.eq_false_iff.mpr hp

/-- One parsed line of the `apt-cache depends --recurse` output: `none`
when the line is skipped, otherwise the dependency text after the
`continue` guard, the `"Depends:" in line` test, `split("Depends:")[1]`,
`strip()` and constraint removal. -/
def depCandidate (line : List Char) : Option String :=
  if stripL line != [] && !(isPre [' '] line) then none
  else if containsSub "Depends:".data line then
    some (String.mk (stripParenL (stripL (splitIdx1 "Depends:".data line))))
  else none

/-- The loop body `if dep and dep not in dependencies:
dependencies.append(dep)`. -/
def addDep (acc : List String) (d : String) : List String :=
  if d ≠ "" ∧ d ∉ acc then acc ++ [d] else acc

/-- The parsing loop of `resolve_dependencies` over the output lines. -/
def resolveLoop : List (List Char) → List String → List String
  | [], acc => acc
  | line :: rest, acc =>
      match depCandidate line with
      | none => resolveLoop rest acc
      | some dep => resolveLoop rest (addDep acc dep)

/-- The dependency list parsed from a given `apt-cache` stdout. -/
def resolveFrom (stdout : String) : List String :=
  resolveLoop (splitLinesL stdout.data) []

/-- The occurrence sequence of (nonempty) dependency names in the
output, before deduplication: the names the loop attempts to append, in
line order. -/
def goodDep (line : List Char) : Option String :=
  match depCandidate line with
  | some d => if d = "" then none else some d
  | none => none

/-- All parsed dependency occurrences of a stdout, in order, duplicates
included. -/
def rawDeps (stdout : String) : List String :=
  (splitLinesL stdout.data).filterMap goodDep

/-- The recursive dependency-listing command of `resolve_dependencies`. -/
def resolveCmd (pkg : String) : List String :=
  ["apt-cache", "depends", pkg, "--recurse", "--no-recommends", "--no-suggests",
   "--no-conflicts", "--no-breaks", "--no-replaces", "--no-enhances"]

/-- `PackageManager.resolve_dependencies`: refresh the cache (result
unused), run the listing command; on failure report the error and return
the empty list, otherwise parse the stdout. -/
def resolve_dependencies (run : Exec) (st : PMState) (pkg : String) :
    List String × PMState × List (List String) :=
  let u := update_cache run st false
  let r := run (resolveCmd pkg)
  if r.exitCode = 0 then (resolveFrom r.stdout, u.1.2, u.2 ++ [resolveCmd pkg])
  else ([], u.1.2, u.2 ++ [resolveCmd pkg])

/-! ### Dedup analysis of the resolver loop -/

/-- Append-if-absent, the deduplicating insertion of the loop. -/
def insAbsent (acc : List String) (d : String) : List String :=
  if d ∈ acc then acc else acc ++ [d]

/-- First-occurrence deduplication with an explicit seen-set, the
recursion the accumulator loop computes. -/
def dedupSeen : List String → List String → List String
  | _, [] => []
  | seen, d :: l => if d ∈ seen then dedupSeen seen l else d :: dedupSeen (d :: seen) l

theorem addDep_eq (acc : List String) (d : String) :
    addDep acc d = if d = "" then acc else insAbsent acc d := by
  unfold addDep insAbsent
  by_cases h1 : d = ""
  · simp [h1]
  · by_cases h2 : d ∈ acc <;> simp [h1, h2]

theorem goodDep_none {line : List Char} (hc : depCandidate line = none) :
    goodDep line = none := by
  unfold goodDep
  rw [hc]

theorem goodDep_some_empty {line : List Char} (hc : depCandidate line = some "") :
    goodDep line = none := by
  unfold goodDep
  rw [hc]
  simp

theorem goodDep_some {line : List Char} {d : String} (hc : depCandidate line = some d)
    (hd : d ≠ "") : goodDep line = some d := by
  unfold goodDep
  rw [hc]
  simp [hd]

theorem resolveLoop_eq_foldl (lines : List (List Char)) (acc : List String) :
    resolveLoop lines acc = (lines.filterMap goodDep).foldl insAbsent acc := by
  induction lines generalizing acc with
  | nil => simp [resolveLoop]
  | cons line rest ih =>
    unfold resolveLoop
    cases hc : depCandidate line with
    | none =>
      rw [List.filterMap_cons_none (goodDep_none hc)]
      show resolveLoop rest acc = List.foldl insAbsent acc (List.filterMap goodDep rest)
      exact ih acc
    | some d =>
      by_cases hd : d = ""
      · subst hd
        rw [List.filterMap_cons_none (goodDep_some_empty hc)]
        show resolveLoop rest (addDep acc "") =
          List.foldl insAbsent acc (List.filterMap goodDep rest)
        have ha : addDep acc "" = acc := by unfold addDep; simp
        rw [ha]
        exact ih acc
      · rw [List.filterMap_cons_some (goodDep_some hc hd), List.foldl_cons]
        show resolveLoop rest (addDep acc d) =
          List.foldl insAbsent (insAbsent acc d) (List.filterMap goodDep rest)
        rw [addDep_eq, if_neg hd]
        exact ih (insAbsent acc d)

theorem foldl_insAbsent_eq (l : List String) (acc seen : List String)
    (h : ∀ x, x ∈ acc ↔ x ∈ seen) :
    l.foldl insAbsent acc = acc ++ dedupSeen seen l := by
  induction l generalizing acc seen with
  | nil => simp [dedupSeen]
  | cons d t ih =>
    rw [List.foldl_cons]
    by_cases hd : d ∈ seen
    · have hda : d ∈ acc := (h d).mpr hd
      have h1 : insAbsent acc d = acc := by unfold insAbsent; rw [if_pos hda]
      rw [h1]
      unfold dedupSeen
      rw [if_pos hd]
      exact ih acc seen h
    · have hda : d ∉ acc := fun hcon => hd ((h d).mp hcon)
      have h1 : insAbsent acc d = acc ++ [d] := by unfold insAbsent; rw [if_neg hda]
      rw [h1]
      unfold dedupSeen
      rw [if_neg hd]
      have h2 : ∀ x, x ∈ acc ++ [d] ↔ x ∈ d :: seen := by
        intro x
        simp only [List.mem_append, List.mem_singleton, List.mem_cons, h x]
        tauto
      rw [ih (acc ++ [d]) (d :: seen) h2, List.append_assoc, List.singleton_append]

theorem mem_dedupSeen {x : String} (l : List String) :
    ∀ seen : List String, x ∈ dedupSeen seen l → x ∉ seen ∧ x ∈ l := by
  induction l with
  | nil => intro seen h; simp [dedupSeen] at h
  | cons d t ih =>
    intro seen h
    unfold dedupSeen at h
    by_cases hd : d ∈ seen
    · rw [if_pos hd] at h
      obtain ⟨h1, h2⟩ := ih seen h
      exact ⟨h1, List.mem_cons_of_mem d h2⟩
    · rw [if_neg hd] at h
      rcases List.mem_cons.mp h with h | h
      · subst h
        exact ⟨hd, List.mem_cons_self x t⟩
      · obtain ⟨h1, h2⟩ := ih (d :: seen) h
        exact ⟨fun hcon => h1 (List.mem_cons_of_mem d hcon), List.mem_cons_of_mem d h2⟩

theorem nodup_dedupSeen (l : List String) : ∀ seen, (dedupSeen seen l).Nodup := by
  induction l with
  | nil => intro seen; simp [dedupSeen]
  | cons d t ih =>
    intro seen
    unfold dedupSeen
    by_cases hd : d ∈ seen
    · rw [if_pos hd]; exact ih seen
    · rw [if_neg hd]
      rw [List.nodup_cons]
      refine ⟨?_, ih (d :: seen)⟩
      intro hcon
      exact (mem_dedupSeen t (d :: seen) hcon).1 (List.mem_cons_self d seen)

theorem dedupSeen_indexOf_iff (l : List String) :
    ∀ (seen : List String) (x y : String),
      x ∈ dedupSeen seen l → y ∈ dedupSeen seen l →
      ((dedupSeen seen l).indexOf x < (dedupSeen seen l).indexOf y ↔
        l.indexOf x < l.indexOf y) := by
  induction l with
  | nil => intro seen x y hx _; simp [dedupSeen] at hx
  | cons d t ih =>
    intro seen x y hx hy
    by_cases hd : d ∈ seen
    · unfold dedupSeen at hx hy ⊢
      rw [if_pos hd] at hx hy ⊢
      have hxd : d ≠ x := fun hcon => (mem_dedupSeen t seen hx).1 (hcon ▸ hd)
      have hyd : d ≠ y := fun hcon => (mem_dedupSeen t seen hy).1 (hcon ▸ hd)
      rw [List.indexOf_cons_ne t hxd, List.indexOf_cons_ne t hyd,
        Nat.succ_lt_succ_iff]
      exact ih seen x y hx hy
    · unfold dedupSeen at hx hy ⊢
      rw [if_neg hd] at hx hy ⊢
      rcases List.mem_cons.mp hx with hxd | hx2
      · subst hxd
        rcases List.mem_cons.mp hy with hyd | hy2
        · subst hyd
          simp
        · have hynd : x ≠ y := fun hcon =>
            (mem_dedupSeen t (x :: seen) hy2).1 (hcon ▸ List.mem_cons_self x seen)
          rw [List.indexOf_cons_self, List.indexOf_cons_self,
            List.indexOf_cons_ne _ hynd, List.indexOf_cons_ne t hynd]
          simp
      · rcases List.mem_cons.mp hy with hyd | hy2
        · subst hyd
          have hxnd : y ≠ x := fun hcon =>
            (mem_dedupSeen t (y :: seen) hx2).1 (hcon ▸ List.mem_cons_self y seen)
          rw [List.indexOf_cons_self, List.indexOf_cons_self,
            List.indexOf_cons_ne _ hxnd, List.indexOf_cons_ne t hxnd]
          simp
        · have hxnd : d ≠ x := fun hcon =>
            (mem_dedupSeen t (d :: seen) hx2).1 (hcon ▸ List.mem_cons_self d seen)
          have hynd : d ≠ y := fun hcon =>
            (mem_dedupSeen t (d :: seen) hy2).1 (hcon ▸ List.mem_cons_self d seen)
          rw [List.indexOf_cons_ne _ hxnd, List.indexOf_cons_ne _ hynd,
            List.indexOf_cons_ne t hxnd, List.indexOf_cons_ne t hynd,
            Nat.succ_lt_succ_iff, Nat.succ_lt_succ_iff]
          exact ih (d :: seen) x y hx2 hy2

theorem resolveFrom_eq (stdout : String) :
    resolveFrom stdout = dedupSeen [] (rawDeps stdout) := by
  unfold resolveFrom rawDeps
  rw [resolveLoop_eq_foldl, foldl_insAbsent_eq _ [] [] (by simp)]
  simp

theorem depCandidate_shape {line : List Char} {d : String}
    (h : depCandidate line = some d) : ∃ t, d = String.mk (stripParenL t) := by
  unfold depCandidate at h
  by_cases h1 : (stripL line != [] && !(isPre [' '] line)) = true
  · rw [if_pos h1] at h
    simp at h
  · rw [if_neg h1] at h
    by_cases h2 : containsSub "Depends:".data line = true
    · rw [if_pos h2] at h
      exact ⟨stripL (splitIdx1 "Depends:".data line), (Option.some.injEq _ _).mp h |>.symm⟩
    · rw [if_neg h2] at h
      simp at h

theorem goodDep_stripped {line : List Char} {x : String}
    (h : goodDep line = some x) : hasParenPairS x = false := by
  unfold goodDep at h
  cases hc : depCandidate line with
  | none => rw [hc] at h; simp at h
  | some d =>
    rw [hc] at h
    have h2 : (if d = "" then (none : Option String) else some d) = some x := h
    by_cases hd : d = ""
    · rw [if_pos hd] at h2; simp at h2
    · rw [if_neg hd] at h2
      obtain ⟨t, ht⟩ := depCandidate_shape hc
      have hx : x = String.mk (stripParenL t) := by
        rw [← (Option.some.injEq _ _).mp h2]
        exact ht
      rw [hx]
      unfold hasParenPairS
      exact stripParen_no_pair t

theorem resolve_dependencies_fst (run : Exec) (st : PMState) (pkg : String) :
    (resolve_dependencies run st pkg).1 =
      if (run (resolveCmd pkg)).exitCode = 0 then
        resolveFrom (run (resolveCmd pkg)).stdout
      else [] := by
  unfold resolve_dependencies
  by_cases h : (run (resolveCmd pkg)).exitCode = 0 <;> simp [h]

/-- C6: the resolved dependency list never contains duplicates, keeps
first-seen order (position order in the result matches first-occurrence
order in the parsed dependency sequence), and every returned name has
its parenthesized version constraint stripped (no `( ... )` group
remains). -/
theorem resolve_deps_nodup_ordered_stripped (run : Exec) (st : PMState) (pkg : String) :
    (resolve_dependencies run st pkg).1.Nodup ∧
    (∀ x ∈ (resolve_dependencies run st pkg).1, hasParenPairS x = false) ∧
    (∀ x y, x ∈ (resolve_dependencies run st pkg).1 →
      y ∈ (resolve_dependencies run st pkg).1 →
      ((resolve_dependencies run st pkg).1.indexOf x <
          (resolve_dependencies run st pkg).1.indexOf y ↔
        (rawDeps (run (resolveCmd pkg)).stdout).indexOf x <
          (rawDeps (run (resolveCmd pkg)).stdout).indexOf y)) := by
  rw [resolve_dependencies_fst]
  by_cases h : (run (resolveCmd pkg)).exitCode = 0
  · rw [if_pos h, resolveFrom_eq]
    refine ⟨nodup_dedupSeen _ [], ?_, ?_⟩
    · intro x hx
      have hraw := (mem_dedupSeen _ [] hx).2
      rw [rawDeps, List.mem_filterMap] at hraw
      obtain ⟨line, _, hline⟩ := hraw
      exact goodDep_stripped hline
    · intro x y hx hy
      exact dedupSeen_indexOf_iff _ [] x y hx hy
  · rw [if_neg h]
    refine ⟨List.nodup_nil, ?_, ?_⟩
    · intro x hx; simp at hx
    · intro x y hx _; simp at hx

/-- An environment whose recursive dependency listing for `libfoo`
reports `libbar`, then `libbaz` with a version constraint, then `libbar`
again. -/
def runResolveLibfoo : Exec := fun c =>
  if c = resolveCmd "libfoo" then
    { exitCode := 0
      stdout := "libfoo\n  Depends: libbar\nlibbar\n  Depends: libbaz (>= 1.0)\n  Depends: libbar\n"
      stderr := "" }
  else { exitCode := 0, stdout := "", stderr := "" }

/-- Witness for C6 at the concrete listing: the result is duplicate-free,
`libbaz` comes out with its constraint stripped, and the two names
appear in first-seen order. -/
theorem resolve_deps_nodup_ordered_stripped_witness :
    (resolve_dependencies runResolveLibfoo freshPM "libfoo").1.Nodup ∧
    hasParenPairS "libbaz" = false ∧
    ((resolve_dependencies runResolveLibfoo freshPM "libfoo").1.indexOf "libbar" <
        (resolve_dependencies runResolveLibfoo freshPM "libfoo").1.indexOf "libbaz" ↔
      (rawDeps (runResolveLibfoo (resolveCmd "libfoo")).stdout).indexOf "libbar" <
        (rawDeps (runResolveLibfoo (resolveCmd "libfoo")).stdout).indexOf "libbaz") := by
  have h := resolve_deps_nodup_ordered_stripped runResolveLibfoo freshPM "libfoo"
  exact ⟨h.1, h.2.1 "libbaz" (by decide), h.2.2 "libbar" "libbaz" (by decide) (by decide)⟩

end PkgMgr
